import Mathlib

/-!
Verification development for `watcher.py` of the healthcare-report-monitor
repository.  The Python source is shallowly embedded: strings become Lean
`String`s (in Lean 4.14 a `String` wraps a `List Char`), machine-independent
Python integers become `Nat`/`Int`, and the two I/O collaborators (the HTTP
fetcher and the SMTP notifier) are factored out: the fetch outcome of each
source is passed in as an `Except` value, and `send_email` is modelled as
emitting a `(subject, body)` pair into a list of sent notifications.

Library calls are embedded by their documented semantics:
* `re.findall(r"(20[0-4]\x5cd)", html)` is the non-overlapping left-to-right
  scan `findYears` below.  The character class `[0-4]` is the literal
  code-point range; `\x5cd` matches any Unicode decimal digit (category Nd),
  embedded by the table `ndDigitBases` of the 66 aligned runs of ten Nd code
  points (CPython's unicodedata), and `int()` parses such a match using the
  digit values of those characters.
* `hashlib.sha256(...).hexdigest()` is implemented in full (FIPS 180-4) over
  the UTF-8 bytes of the string.
* `BeautifulSoup(html, "html.parser")`, `.find("h1")` and
  `.get_text(strip=True)` are modelled by the tokenizer `tokenize` below:
  markup between `<` and `>` forms tag tokens, the runs of characters between
  tags form the string nodes, `find` selects the first non-closing tag named
  `h1`, and `get_text(strip=True)` concatenates the whitespace-stripped string
  nodes of the element with the empty separator.  The parser's character
  reference conversion (`convert_charrefs=True`, e.g. the five basic entities
  and numeric references) is NOT modelled: statements about `h1` text content
  therefore carry the hypothesis that the text is free of `&` (besides `<`),
  on which the parser delivers the text verbatim.
* Python `str.strip()` / `str.split()` are `pyStrip` / `pySplit` over the
  29 code points of CPython's `str.isspace()` whitespace set.
-/

/-- The whitespace characters recognised by Python `str.strip()` and
`str.split()`: the 29 code points for which CPython's `str.isspace()` is
true (ASCII control whitespace, the information separators, NBSP, and the
Unicode space/line/paragraph separators). -/
def pySpace (c : Char) : Bool :=
  c.toNat ∈ [9, 10, 11, 12, 13, 28, 29, 30, 31, 32,
    133, 160, 5760, 8192, 8193, 8194, 8195, 8196, 8197, 8198,
    8199, 8200, 8201, 8202, 8232, 8233, 8239, 8287, 12288]

/-- Python `str.strip()`: drop whitespace from both ends. -/
def pyStrip (l : List Char) : List Char :=
  ((l.dropWhile pySpace).reverse.dropWhile pySpace).reverse

/-- One step of Python `str.split()` (no separator argument), implemented as a
right fold: the state is `(completed words, partial word accumulated from the
right)`. -/
def pySplitStep (c : Char) (st : List (List Char) × List Char) :
    List (List Char) × List Char :=
  if pySpace c then
    match st.2 with
    | [] => (st.1, [])
    | w => (w :: st.1, [])
  else (st.1, c :: st.2)

/-- Python `str.split()` with no arguments: the maximal runs of
non-whitespace characters, in order. -/
def pySplit (l : List Char) : List (List Char) :=
  match l.foldr pySplitStep ([], []) with
  | (ws, []) => ws
  | (ws, w) => w :: ws

/-- Python `" ".join(s.split())`: collapse every internal whitespace run to a
single space and trim both ends. -/
def pyJoinSplit (l : List Char) : List Char :=
  List.intercalate [' '] (pySplit l)

/-- Python `max` over a list of naturals (`none` on the empty list, where the
Python builtin would raise). -/
def pyMax : List Nat → Option Nat
  | [] => none
  | x :: xs =>
    match pyMax xs with
    | none => some x
    | some m => some (Max.max x m)

/-- The characters matched by the regex class `[0-4]`. -/
def digits04 : List Char := ['0', '1', '2', '3', '4']

/-- The ASCII decimal digits (the subset of Nd below U+0080). -/
def digits09 : List Char := ['0', '1', '2', '3', '4', '5', '6', '7', '8', '9']

/-- The base code points of the 66 runs of ten consecutive Unicode decimal
digits (category Nd): every Nd character is `base + v` for exactly one base
here and one digit value `v < 10`.  This is the character set Python's `\x5cd`
matches and `int()` parses (CPython unicodedata). -/
def ndDigitBases : List Nat :=
  [48, 1632, 1776, 1984, 2406, 2534, 2662, 2790,
   2918, 3046, 3174, 3302, 3430, 3558, 3664, 3792,
   3872, 4160, 4240, 6112, 6160, 6470, 6608, 6784,
   6800, 6992, 7088, 7232, 7248, 42528, 43216, 43264,
   43472, 43504, 43600, 44016, 65296, 66720, 68912, 69734,
   69872, 69942, 70096, 70384, 70736, 70864, 71248, 71360,
   71472, 71904, 72016, 72784, 73040, 73120, 92768, 92864,
   93008, 120782, 120792, 120802, 120812, 120822, 123200, 123632,
   125264, 130032]

/-- Look a code point up in the digit-run table: its digit value, or `none`
when it is not a decimal digit. -/
def ndLookup : List Nat → Nat → Option Nat
  | [], _ => none
  | b :: bs, n => if b ≤ n ∧ n ≤ b + 9 then some (n - b) else ndLookup bs n

/-- The Unicode digit value of a character (`none` for non-digits). -/
def pyDigitVal? (c : Char) : Option Nat := ndLookup ndDigitBases c.toNat

/-- Python's `\x5cd`: does the character belong to category Nd? -/
def isPyDigit (c : Char) : Bool := (pyDigitVal? c).isSome

/-- The digit value `int()` assigns to a decimal digit character. -/
def pyDigitVal (c : Char) : Nat := (pyDigitVal? c).getD 0

/-- Numeric value of the 4-character match `"20" ++ [c3, c4]` under Python
`int` (the third character is ASCII `0`-`4`, the fourth any Unicode decimal
digit contributing its digit value). -/
def yearVal (c3 c4 : Char) : Nat :=
  2000 + 10 * (c3.toNat - 48) + pyDigitVal c4

/-- `re.findall(r"(20[0-4]\x5cd)", html)` converted to integers: the scan is
left-to-right and non-overlapping — a successful match consumes its four
characters, a failed attempt advances one character. -/
def findYears : List Char → List Nat
  | c1 :: c2 :: c3 :: c4 :: rest =>
    if c1 = '2' ∧ c2 = '0' ∧ c3 ∈ digits04 ∧ isPyDigit c4 = true then
      yearVal c3 c4 :: findYears rest
    else
      findYears (c2 :: c3 :: c4 :: rest)
  | _ => []

/-- `extract_latest_year` from `watcher.py`: all (non-overlapping) regex
matches as a deduplicated collection, filtered to values at least `min_year`;
the decimal string of the maximum, `none` when nothing survives. -/
def extract_latest_year (html : String) (min_year : Int := 2010) :
    Option String :=
  match pyMax ((findYears html.data).dedup.filter
      (fun y => decide (min_year ≤ (y : Nat)))) with
  | some m => some (toString m)
  | none => none

/-- Modelled from the spec wording of C1: the set of ALL substrings of the
content matching the year pattern — including overlapping ones — rather than
the non-overlapping matches the regex scan produces. -/
def specYearsAt : List Char → List Nat
  | c1 :: c2 :: c3 :: c4 :: _ =>
    if c1 = '2' ∧ c2 = '0' ∧ c3 ∈ digits04 ∧ c4 ∈ digits09 then
      [yearVal c3 c4]
    else []
  | _ => []

/-- Modelled from the spec wording of C1: collect a match at every position. -/
def specYears : List Char → List Nat
  | [] => []
  | c :: rest => specYearsAt (c :: rest) ++ specYears rest

/-- Modelled from the spec wording of C1: `extract_latest_year` as the spec
sentence literally reads, over all (possibly overlapping) matching
substrings. -/
def specExtractLatestYear (html : String) (min_year : Int) : Option String :=
  match pyMax ((specYears html.data).dedup.filter
      (fun y => decide (min_year ≤ (y : Nat)))) with
  | some m => some (toString m)
  | none => none

/-!  SHA-256 (FIPS 180-4), embedding `hashlib.sha256(...).hexdigest()` over
Nat arithmetic reduced modulo `2 ^ 32`. -/

/-- Truncation to a 32-bit word. -/
def w32 (n : Nat) : Nat := n % 4294967296

/-- 32-bit rotate right. -/
def rotr (k x : Nat) : Nat := w32 ((x >>> k) ||| (x <<< (32 - k)))

/-- The lowercase sigma-0 message-schedule function. -/
def ssig0 (x : Nat) : Nat := (rotr 7 x) ^^^ (rotr 18 x) ^^^ (x >>> 3)

/-- The lowercase sigma-1 message-schedule function. -/
def ssig1 (x : Nat) : Nat := (rotr 17 x) ^^^ (rotr 19 x) ^^^ (x >>> 10)

/-- The eight 32-bit words of the SHA-256 state. -/
structure Hash8 where
  a : Nat
  b : Nat
  c : Nat
  d : Nat
  e : Nat
  f : Nat
  g : Nat
  h : Nat

/-- The SHA-256 round constants. -/
def shaK : List Nat :=
  [1116352408, 1899447441, 3049323471, 3921009573,
   961987163, 1508970993, 2453635748, 2870763221,
   3624381080, 310598401, 607225278, 1426881987,
   1925078388, 2162078206, 2614888103, 3248222580,
   3835390401, 4022224774, 264347078, 604807628,
   770255983, 1249150122, 1555081692, 1996064986,
   2554220882, 2821834349, 2952996808, 3210313671,
   3336571891, 3584528711, 113926993, 338241895,
   666307205, 773529912, 1294757372, 1396182291,
   1695183700, 1986661051, 2177026350, 2456956037,
   2730485921, 2820302411, 3259730800, 3345764771,
   3516065817, 3600352804, 4094571909, 275423344,
   430227734, 506948616, 659060556, 883997877,
   958139571, 1322822218, 1537002063, 1747873779,
   1955562222, 2024104815, 2227730452, 2361852424,
   2428436474, 2756734187, 3204031479, 3329325298]

/-- The SHA-256 initial state. -/
def shaH0 : Hash8 :=
  ⟨1779033703, 3144134277, 1013904242, 2773480762,
   1359893119, 2600822924, 528734635, 1541459225⟩

/-- One SHA-256 compression round, fed the pair (round constant, schedule
word). -/
def shaRound (st : Hash8) (kw : Nat × Nat) : Hash8 :=
  let S1 := (rotr 6 st.e) ^^^ (rotr 11 st.e) ^^^ (rotr 25 st.e)
  let ch := (st.e &&& st.f) ^^^ ((st.e ^^^ 4294967295) &&& st.g)
  let temp1 := w32 (st.h + S1 + ch + kw.1 + kw.2)
  let S0 := (rotr 2 st.a) ^^^ (rotr 13 st.a) ^^^ (rotr 22 st.a)
  let maj := (st.a &&& st.b) ^^^ (st.a &&& st.c) ^^^ (st.b &&& st.c)
  let temp2 := w32 (S0 + maj)
  ⟨w32 (temp1 + temp2), st.a, st.b, st.c, w32 (st.d + temp1), st.e, st.f, st.g⟩

/-- Extend the (reversed) message-schedule word list by `k` further words. -/
def shaExtend (ws : List Nat) : Nat → List Nat
  | 0 => ws
  | k + 1 =>
    shaExtend
      (w32 (ssig1 (ws.getD 1 0) + ws.getD 6 0 + ssig0 (ws.getD 14 0) +
        ws.getD 15 0) :: ws) k

/-- The sixteen 32-bit big-endian words of one 64-byte block. -/
def blockWords (block : List Nat) : List Nat :=
  (List.range 16).map fun i =>
    block.getD (4 * i) 0 * 16777216 + block.getD (4 * i + 1) 0 * 65536 +
      block.getD (4 * i + 2) 0 * 256 + block.getD (4 * i + 3) 0

/-- SHA-256 compression of one 64-byte block into the running state. -/
def compressBlock (H : Hash8) (block : List Nat) : Hash8 :=
  let ws := (shaExtend (blockWords block).reverse 48).reverse
  let st := (shaK.zip ws).foldl shaRound H
  ⟨w32 (H.a + st.a), w32 (H.b + st.b), w32 (H.c + st.c), w32 (H.d + st.d),
   w32 (H.e + st.e), w32 (H.f + st.f), w32 (H.g + st.g), w32 (H.h + st.h)⟩

/-- The 8-byte big-endian encoding of the bit length. -/
def beBytes8 (n : Nat) : List Nat :=
  [n / 72057594037927936 % 256, n / 281474976710656 % 256,
   n / 1099511627776 % 256, n / 4294967296 % 256, n / 16777216 % 256,
   n / 65536 % 256, n / 256 % 256, n % 256]

/-- SHA-256 padding: a `0x80` byte, zeros to 56 mod 64, and the 64-bit
big-endian message bit length. -/
def shaPad (bs : List Nat) : List Nat :=
  bs ++ [128] ++ List.replicate ((119 - bs.length % 64) % 64) 0 ++
    beBytes8 (8 * bs.length)

/-- The SHA-256 state after absorbing a whole byte message. -/
def sha256 (bs : List Nat) : Hash8 :=
  let p := shaPad bs
  (List.range (p.length / 64)).foldl
    (fun H i => compressBlock H ((p.drop (64 * i)).take 64)) shaH0

/-- Lowercase hexadecimal digit of a nibble. -/
def hexDigit (n : Nat) : Char :=
  if n < 10 then Char.ofNat (48 + n) else Char.ofNat (87 + n)

/-- The eight hex characters of one 32-bit word, most significant nibble
first. -/
def wordHexChars (w : Nat) : List Char :=
  [hexDigit (w / 268435456 % 16), hexDigit (w / 16777216 % 16),
   hexDigit (w / 1048576 % 16), hexDigit (w / 65536 % 16),
   hexDigit (w / 4096 % 16), hexDigit (w / 256 % 16),
   hexDigit (w / 16 % 16), hexDigit (w % 16)]

/-- `hashlib.sha256(bs).hexdigest()` as a character list. -/
def sha256hexChars (bs : List Nat) : List Char :=
  let H := sha256 bs
  wordHexChars H.a ++ wordHexChars H.b ++ wordHexChars H.c ++
    wordHexChars H.d ++ wordHexChars H.e ++ wordHexChars H.f ++
    wordHexChars H.g ++ wordHexChars H.h

/-- The UTF-8 bytes of one character (Python `str.encode("utf-8")`,
per scalar value). -/
def utf8Char (c : Char) : List Nat :=
  let n := c.toNat
  if n < 128 then [n]
  else if n < 2048 then [192 + n / 64, 128 + n % 64]
  else if n < 65536 then [224 + n / 4096, 128 + n / 64 % 64, 128 + n % 64]
  else [240 + n / 262144, 128 + n / 4096 % 64, 128 + n / 64 % 64, 128 + n % 64]

/-- The UTF-8 encoding of a string as a byte list. -/
def utf8Bytes (s : String) : List Nat := (s.data.map utf8Char).flatten

/-- `hash_page` from `watcher.py`: the first 10 hex characters of the SHA-256
digest of the UTF-8 bytes of the content. -/
def hash_page (html : String) : String :=
  String.mk ((sha256hexChars (utf8Bytes html)).take 10)

/-!  The HTML slice used by `extract_kaufman_title`: a tokenizer modelling
`BeautifulSoup(html, "html.parser")` restricted to what `find("h1")` and
`get_text(strip=True)` observe.  Markup between `<` and `>` is a tag token;
maximal runs of characters between tags are the string nodes. -/

/-- A token of the HTML stream: a tag (the characters between `<` and `>`) or
a text run. -/
inductive Tok where
  | tagTok : List Char → Tok
  | textTok : List Char → Tok
deriving DecidableEq

/-- One character step of the tokenizer.  The state is the emitted tokens in
reverse plus the pending token: `none` at top level, `some (true, acc)` inside
a tag, `some (false, acc)` inside a text run (`acc` reversed). -/
def tkStep (st : List Tok × Option (Bool × List Char)) (c : Char) :
    List Tok × Option (Bool × List Char) :=
  match st.2 with
  | none =>
    if c = '<' then (st.1, some (true, []))
    else (st.1, some (false, [c]))
  | some (true, acc) =>
    if c = '>' then (Tok.tagTok acc.reverse :: st.1, none)
    else (st.1, some (true, c :: acc))
  | some (false, acc) =>
    if c = '<' then (Tok.textTok acc.reverse :: st.1, some (true, []))
    else (st.1, some (false, c :: acc))

/-- Flush the pending token and put the stream in document order. -/
def tkFinish (st : List Tok × Option (Bool × List Char)) : List Tok :=
  match st.2 with
  | none => st.1.reverse
  | some (true, acc) => (Tok.tagTok acc.reverse :: st.1).reverse
  | some (false, acc) => (Tok.textTok acc.reverse :: st.1).reverse

/-- Tokenize a character stream. -/
def tokenize (cs : List Char) : List Tok :=
  tkFinish (cs.foldl tkStep ([], none))

/-- Characters that may appear in a tag name. -/
def isNameChar (c : Char) : Bool := c.isAlpha || c.isDigit

/-- Classify a tag token: whether it is a closing tag, and its lowercased
name (html.parser lowercases tag names). -/
def tagParse (tg : List Char) : Bool × List Char :=
  match tg with
  | '/' :: rest => (true, (rest.takeWhile isNameChar).map Char.toLower)
  | _ => (false, (tg.takeWhile isNameChar).map Char.toLower)

/-- The string nodes of the first `h1` element: all text runs up to the
closing `</h1>` (or the end of the document). -/
def collectH1 : List Tok → List (List Char)
  | [] => []
  | Tok.tagTok tg :: rest =>
    if tagParse tg = (true, ['h', '1']) then [] else collectH1 rest
  | Tok.textTok t :: rest => t :: collectH1 rest

/-- `soup.find("h1")` reduced to what `get_text` observes: `none` when no
(non-closing) `h1` tag exists, otherwise the string nodes of the first one. -/
def h1Strings : List Tok → Option (List (List Char))
  | [] => none
  | Tok.tagTok tg :: rest =>
    if tagParse tg = (false, ['h', '1']) then some (collectH1 rest)
    else h1Strings rest
  | Tok.textTok _ :: rest => h1Strings rest

/-- `extract_kaufman_title` from `watcher.py`: `h1.get_text(strip=True)`
concatenates the whitespace-stripped string nodes (empty separator), then
`" ".join(text.split())` collapses the whitespace inside each node, and the
empty result becomes `None` (`text or None`). -/
def extract_kaufman_title (html : String) : Option String :=
  match h1Strings (tokenize html.data) with
  | none => none
  | some texts =>
    if pyJoinSplit ((texts.map pyStrip).flatten) = [] then none
    else some (String.mk (pyJoinSplit ((texts.map pyStrip).flatten)))

/-- Modelled from the spec wording of C4: the TEXT CONTENT of the first `h1`
(the plain concatenation of its string nodes, as the DOM text content),
with every internal whitespace run collapsed to one space and the ends
trimmed. -/
def specKaufmanTitle (html : String) : Option String :=
  match h1Strings (tokenize html.data) with
  | none => none
  | some texts =>
    if pyJoinSplit texts.flatten = [] then none
    else some (String.mk (pyJoinSplit texts.flatten))

/-!  The source registry, the mode dispatcher and the run orchestrator. -/

/-- A source descriptor (one entry of the `SOURCES` list of dicts).  The
`mode` and `min_year` keys are optional, read in the source with
`src.get("mode", "hash")` and `src.get("min_year", 2010)`. -/
structure Source where
  id : String
  name : String
  url : String
  mode : Option String := none
  min_year : Option Int := none
deriving DecidableEq

/-- The `SOURCES` registry of `watcher.py`, in order. -/
def SOURCES : List Source :=
  [⟨"cms_nhe", "CMS National Health Expenditure Projections",
    "https://www.cms.gov/data-research/statistics-trends-and-reports/national-health-expenditure-data/projected",
    some "latest_year", some 2015⟩,
   ⟨"kff_ehbs", "KFF Employer Health Benefits Survey",
    "https://www.kff.org/series/employer-health-benefits-survey/",
    some "latest_year", some 2015⟩,
   ⟨"trilliant_trends", "Trilliant – Health Economy Trends Report",
    "https://www.trillianthealth.com/market-research/reports/2025-health-economy-trends",
    some "hash", none⟩,
   ⟨"kaufman_flash", "Kaufman Hall National Hospital Flash Report",
    "https://www.kaufmanhall.com/insights-reports/national-hospital-flash-report",
    some "kaufman_title", none⟩,
   ⟨"milliman_mmi", "Milliman Medical Index",
    "https://www.milliman.com/en/insights/milliman-medical-index-archive",
    some "latest_year", some 2010⟩,
   ⟨"hcci_cost_util", "HCCI – Health Care Cost and Utilization Report",
    "https://healthcarecostinstitute.org/research/annual-reports",
    some "latest_year", some 2010⟩,
   ⟨"fair_health_indicators", "FAIR Health – Healthcare Indicators",
    "https://www.fairhealth.org/publications/white-papers",
    some "latest_year", some 2015⟩,
   ⟨"bgh_employer_strategy", "Business Group on Health – Large Employer Survey",
    "https://www.businessgrouphealth.org/en/topics/employer-survey",
    some "latest_year", some 2015⟩,
   ⟨"commonwealth_intl_survey",
    "Commonwealth Fund – International Health Policy Survey",
    "https://www.commonwealthfund.org/international-health-policy-survey",
    some "latest_year", some 2010⟩,
   ⟨"deloitte_us_outlook", "Deloitte – US Health Care Outlook",
    "https://www2.deloitte.com/us/en/pages/life-sciences-and-health-care/articles/us-health-care-industry-outlook.html",
    some "latest_year", some 2015⟩,
   ⟨"pwc_top_issues", "PwC – Top Health Industry Issues",
    "https://www.pwc.com/us/en/industries/health-industries/library/top-health-industry-issues.html",
    some "latest_year", some 2015⟩,
   ⟨"aha_fast_facts", "AHA – Fast Facts on U.S. Hospitals",
    "https://www.aha.org/statistics/fast-facts-us-hospitals",
    some "latest_year", some 2010⟩,
   ⟨"rand_hospital_prices", "RAND – Hospital Price Transparency Studies",
    "https://www.rand.org/health-care/projects/hospital-price-transparency.html",
    some "latest_year", some 2010⟩]

/-- `get_version_for_source` from `watcher.py`, with the I/O step
`fetch_html` factored out: the fetched page content is the second argument.
The dispatch on the mode string and the fallbacks (`year or "unknown-year"`,
`label or hash_page(html)`, default branch) follow the source line by
line.  All strategies are total functions, so extraction never raises. -/
def get_version_for_source (src : Source) (html : String) : String :=
  let mode := src.mode.getD "hash"
  if mode = "latest_year" then
    match extract_latest_year html (src.min_year.getD 2010) with
    | some year => year
    | none => "unknown-year"
  else if mode = "kaufman_title" then
    match extract_kaufman_title html with
    | some label => label
    | none => hash_page html
  else if mode = "hash" then hash_page html
  else hash_page html

/-- `send_email` from `watcher.py`, modelled by its observable effect: one
notification `(subject, body)` is appended to the list of sent
notifications (whether it goes over SMTP or, unconfigured, to stdout). -/
def send_email (sent : List (String × String)) (subject body : String) :
    List (String × String) :=
  sent ++ [(subject, body)]

/-- The success line appended for a source that produced a version. -/
def successLine (src : Source) (version : String) : String :=
  "- " ++ src.name ++ ": " ++ version ++ "  (" ++ src.url ++ ")"

/-- The error line appended for a source whose processing raised `e`. -/
def errorLine (src : Source) (e : String) : String :=
  "[ERROR] " ++ src.id ++ ": " ++ e

/-- The per-source loop of `run`: fold over the sources in registry order,
appending to the success list on a successful fetch and to the error list on
a raised fetch error, then continuing with the next source.  The fetch
outcome of each source is given by `fetch`. -/
def runStep (fetch : Source → Except String String)
    (acc : List String × List String) (src : Source) :
    List String × List String :=
  match fetch src with
  | Except.ok html =>
    (acc.1 ++ [successLine src (get_version_for_source src html)], acc.2)
  | Except.error e => (acc.1, acc.2 ++ [errorLine src e])

def runLists (fetch : Source → Except String String)
    (srcs : List Source) : List String × List String :=
  srcs.foldl (runStep fetch) ([], [])

/-- `run` from `watcher.py`: build the two lists, then send exactly one
notification — the all-failed variant when no source succeeded and at least
one errored (the early `return` skips the snapshot), else the snapshot
variant with an error section appended when errors exist.  The result is the
list of notifications the run delivered. -/
def run (fetch : Source → Except String String) : List (String × String) :=
  let lists := runLists fetch SOURCES
  let lines := lists.1
  let errors := lists.2
  if lines = [] ∧ errors ≠ [] then
    send_email [] "Healthcare report watcher: ALL CHECKS FAILED"
      ("All sources failed to fetch:\n\n" ++ String.intercalate "\n" errors)
  else
    send_email [] "Healthcare report watcher: latest snapshot"
      ("Here is the latest snapshot of monitored healthcare reports:\n\n" ++
        String.intercalate "\n" lines ++
        (if errors ≠ [] then
          "\n\nErrors:\n" ++ String.intercalate "\n" errors
        else ""))

/-- The success line a source contributes, `none` when its fetch raises. -/
def okLine (fetch : Source → Except String String) (src : Source) :
    Option String :=
  match fetch src with
  | Except.ok html => some (successLine src (get_version_for_source src html))
  | Except.error _ => none

/-- The error line a source contributes, `none` when its fetch succeeds. -/
def errLine (fetch : Source → Except String String) (src : Source) :
    Option String :=
  match fetch src with
  | Except.ok _ => none
  | Except.error e => some (errorLine src e)

/-!  Concrete sanity checks of the embedded strategies. -/

example : extract_latest_year "...2024 and 2019..." 2020 = some "2024" := by
  decide

example : extract_latest_year "...2024 and 2019..." 2025 = none := by decide

example : extract_latest_year "202023" 2010 = some "2020" := by decide

example : specExtractLatestYear "202023" 2010 = some "2023" := by decide

set_option maxRecDepth 10000 in
example : hash_page "abc" = "ba7816bf8f" := by decide

set_option maxRecDepth 10000 in
example : hash_page "" = "e3b0c44298" := by decide

example :
    extract_kaufman_title "<h1>  Report   Title\n2025 </h1>" =
      some "Report Title 2025" := by decide

example : extract_kaufman_title "<p>no heading</p>" = none := by decide

example : extract_kaufman_title "<h1>A <b>B</b></h1>" = some "AB" := by decide

example : specKaufmanTitle "<h1>A <b>B</b></h1>" = some "A B" := by decide

/-!  Helper lemmas about `pyMax` and the year scan. -/

theorem pyMax_eq_none_iff (l : List Nat) : pyMax l = none ↔ l = [] := by
  cases l with
  | nil => simp [pyMax]
  | cons x xs =>
    simp only [pyMax]
    cases pyMax xs <;> simp

theorem pyMax_eq_some_mem (l : List Nat) (m : Nat) (h : pyMax l = some m) :
    m ∈ l ∧ ∀ x ∈ l, x ≤ m := by
  induction l generalizing m with
  | nil => simp [pyMax] at h
  | cons x xs ih =>
    simp only [pyMax] at h
    cases hx : pyMax xs with
    | none =>
      rw [hx] at h
      obtain rfl : x = m := by simpa using h
      have hnil : xs = [] := (pyMax_eq_none_iff xs).mp hx
      subst hnil
      simp
    | some m' =>
      rw [hx] at h
      obtain rfl : Max.max x m' = m := by simpa using h
      obtain ⟨hmem, hall⟩ := ih m' hx
      constructor
      · rcases Nat.le_total x m' with hle | hle
        · simp only [List.mem_cons]
          right
          rwa [Nat.max_eq_right hle]
        · simp [Nat.max_eq_left hle]
      · intro z hz
        rcases List.mem_cons.mp hz with rfl | hz'
        · exact Nat.le_max_left _ _
        · exact Nat.le_trans (hall z hz') (Nat.le_max_right _ _)

theorem pyMax_eq_some_iff (l : List Nat) (m : Nat) :
    pyMax l = some m ↔ m ∈ l ∧ ∀ x ∈ l, x ≤ m := by
  constructor
  · exact pyMax_eq_some_mem l m
  · rintro ⟨hmem, hall⟩
    cases hp : pyMax l with
    | none =>
      rw [pyMax_eq_none_iff] at hp
      subst hp
      simp at hmem
    | some m' =>
      obtain ⟨hmem', hall'⟩ := pyMax_eq_some_mem l m' hp
      have : m' = m := Nat.le_antisymm (hall m' hmem') (hall' m hmem)
      rw [this]

/-- Any digit value the run table yields is below ten. -/
theorem ndLookup_le_nine :
    ∀ (bs : List Nat) (n v : Nat), ndLookup bs n = some v → v ≤ 9 := by
  intro bs
  induction bs with
  | nil => intro n v h; simp [ndLookup] at h
  | cons b bs ih =>
    intro n v h
    rw [ndLookup] at h
    by_cases hb : b ≤ n ∧ n ≤ b + 9
    · rw [if_pos hb] at h
      obtain rfl : n - b = v := by simpa using h
      omega
    · rw [if_neg hb] at h
      exact ih n v h

/-- The digit value of any Unicode decimal digit is below ten. -/
theorem pyDigitVal_le_nine (c : Char) (h : isPyDigit c = true) :
    pyDigitVal c ≤ 9 := by
  unfold isPyDigit at h
  cases hv : pyDigitVal? c with
  | none => rw [hv] at h; simp at h
  | some v =>
    have : pyDigitVal c = v := by simp [pyDigitVal, hv]
    rw [this]
    exact ndLookup_le_nine ndDigitBases c.toNat v hv

/-- On the ASCII digits the Unicode digit value is the code point minus 48,
and they are digits. -/
theorem digits09_pyDigit :
    ∀ c ∈ digits09, isPyDigit c = true ∧ pyDigitVal c = c.toNat - 48 := by
  decide

/-- Every year the scan produces comes from a concrete 4-character match
somewhere in the input. -/
theorem findYears_mem (cs : List Char) (y : Nat) (hy : y ∈ findYears cs) :
    ∃ c3 c4 pre post, c3 ∈ digits04 ∧ isPyDigit c4 = true ∧
      y = yearVal c3 c4 ∧
      cs = pre ++ '2' :: '0' :: c3 :: c4 :: post := by
  induction cs using findYears.induct generalizing y with
  | case1 c1 c2 c3 c4 rest hcond ih =>
    rw [findYears, if_pos hcond] at hy
    obtain ⟨h1, h2, h3, h4⟩ := hcond
    rcases List.mem_cons.mp hy with heq | hmem
    · exact ⟨c3, c4, [], rest, h3, h4, heq, by simp [h1, h2]⟩
    · obtain ⟨d3, d4, pre, post, m3, m4, hval, hsplit⟩ := ih y hmem
      exact ⟨d3, d4, c1 :: c2 :: c3 :: c4 :: pre, post, m3, m4, hval, by
        simp [hsplit]⟩
  | case2 c1 c2 c3 c4 rest hcond ih =>
    rw [findYears, if_neg hcond] at hy
    obtain ⟨d3, d4, pre, post, m3, m4, hval, hsplit⟩ := ih y hy
    exact ⟨d3, d4, c1 :: pre, post, m3, m4, hval, by simp [hsplit]⟩
  | case3 cs h =>
    simp [findYears] at hy

/-- When the matched digit is ASCII, the decimal string of a matched year is
exactly its four matched characters. -/
theorem yearVal_toString :
    ∀ c3 ∈ digits04, ∀ c4 ∈ digits09,
      toString (yearVal c3 c4) = String.mk ['2', '0', c3, c4] := by decide

/-- Years produced by the scan lie in the range 2000-2049 (also for
non-ASCII digits, whose digit value is below ten). -/
theorem yearVal_bounds (c3 c4 : Char) (h3 : c3 ∈ digits04)
    (h4 : isPyDigit c4 = true) :
    2000 ≤ yearVal c3 c4 ∧ yearVal c3 c4 < 2050 := by
  have hv4 : pyDigitVal c4 ≤ 9 := pyDigitVal_le_nine c4 h4
  have hv3 : c3.toNat - 48 ≤ 4 := by
    fin_cases h3 <;> decide
  unfold yearVal
  omega

/-- Membership in the filtered, deduplicated year list. -/
theorem mem_filtered_years (html : String) (min_year : Int) (y : Nat) :
    (y ∈ ((findYears html.data).dedup.filter
        (fun y => decide (min_year ≤ (y : Nat))))) ↔
      y ∈ findYears html.data ∧ min_year ≤ (y : Int) := by
  rw [List.mem_filter, List.mem_dedup]
  simp

/-- Characterization of a successful `extract_latest_year` result: the
returned string is the decimal form of a matched year that is at least
`min_year` and at least every other surviving matched year. -/
theorem extract_latest_year_some_iff (html : String) (min_year : Int)
    (s : String) :
    extract_latest_year html min_year = some s ↔
      ∃ y : Nat, y ∈ findYears html.data ∧ min_year ≤ (y : Int) ∧
        (∀ z ∈ findYears html.data, min_year ≤ (z : Int) → z ≤ y) ∧
        s = toString y := by
  unfold extract_latest_year
  constructor
  · intro h
    cases hp : pyMax ((findYears html.data).dedup.filter
        (fun y => decide (min_year ≤ (y : Nat)))) with
    | none => rw [hp] at h; simp at h
    | some m =>
      rw [hp] at h
      obtain rfl : toString m = s := by simpa using h
      obtain ⟨hmem, hall⟩ := pyMax_eq_some_mem _ _ hp
      obtain ⟨hm1, hm2⟩ := (mem_filtered_years html min_year m).mp hmem
      refine ⟨m, hm1, hm2, ?_, rfl⟩
      intro z hz1 hz2
      exact hall z ((mem_filtered_years html min_year z).mpr ⟨hz1, hz2⟩)
  · rintro ⟨y, hy1, hy2, hy3, rfl⟩
    have hp : pyMax ((findYears html.data).dedup.filter
        (fun y => decide (min_year ≤ (y : Nat)))) = some y := by
      rw [pyMax_eq_some_iff]
      refine ⟨(mem_filtered_years html min_year y).mpr ⟨hy1, hy2⟩, ?_⟩
      intro z hz
      obtain ⟨hz1, hz2⟩ := (mem_filtered_years html min_year z).mp hz
      exact hy3 z hz1 hz2
    rw [hp]

/-- Characterization of the sentinel case: no matched year survives the
filter. -/
theorem extract_latest_year_none_iff (html : String) (min_year : Int) :
    extract_latest_year html min_year = none ↔
      ∀ y ∈ findYears html.data, (y : Int) < min_year := by
  unfold extract_latest_year
  cases hp : pyMax ((findYears html.data).dedup.filter
      (fun y => decide (min_year ≤ (y : Nat)))) with
  | some m =>
    simp only [hp, Option.some_ne_none, false_iff]
    intro hall
    obtain ⟨hmem, _⟩ := pyMax_eq_some_mem _ _ hp
    obtain ⟨hm1, hm2⟩ := (mem_filtered_years html min_year m).mp hmem
    exact absurd hm2 (Int.not_le.mpr (hall m hm1))
  | none =>
    simp only [hp, true_iff]
    rw [pyMax_eq_none_iff, List.eq_nil_iff_forall_not_mem] at hp
    intro y hy
    by_contra hlt
    exact hp y ((mem_filtered_years html min_year y).mpr
      ⟨hy, Int.not_lt.mp hlt⟩)

theorem runLists_foldl_acc (fetch : Source → Except String String)
    (srcs : List Source) :
    ∀ l e : List String,
      srcs.foldl (runStep fetch) (l, e) =
        (l ++ srcs.filterMap (okLine fetch),
         e ++ srcs.filterMap (errLine fetch)) := by
  induction srcs with
  | nil => simp
  | cons s ss ih =>
    intro l e
    rw [List.foldl_cons]
    cases hf : fetch s with
    | ok html =>
      rw [show runStep fetch (l, e) s =
          (l ++ [successLine s (get_version_for_source s html)], e) by
        simp [runStep, hf]]
      rw [ih]
      simp [List.filterMap_cons, okLine, errLine, hf]
    | error err =>
      rw [show runStep fetch (l, e) s = (l, e ++ [errorLine s err]) by
        simp [runStep, hf]]
      rw [ih]
      simp [List.filterMap_cons, okLine, errLine, hf]

/-!  The claim theorems. -/

/-- C1 (counterexample): the claimed semantics — the maximum over ALL
substrings matching two literal digits `20`, one digit `0`-`4`, one digit
`0`-`9` — differ from the code twice over.  On `"202023"` the regex scan is
non-overlapping: it consumes `"2020"` and never sees the overlapping match
`"2023"`.  And on `"202٤"` (final character U+0664, the Arabic-Indic digit
four) the pattern's `\x5cd` matches a non-ASCII decimal digit, so the code
returns `"2024"` where the claimed `0`-`9` digit class finds nothing. -/
theorem extract_latest_year_regex_counterexample :
    extract_latest_year "202023" 2010 ≠ specExtractLatestYear "202023" 2010 ∧
    extract_latest_year "202023" 2010 = some "2020" ∧
    specExtractLatestYear "202023" 2010 = some "2023" ∧
    extract_latest_year "202٤" 2010 ≠ specExtractLatestYear "202٤" 2010 ∧
    extract_latest_year "202٤" 2010 = some "2024" ∧
    specExtractLatestYear "202٤" 2010 = none :=
  ⟨by decide, by decide, by decide, by decide, by decide, by decide⟩

/-- C1 (amended): `extract_latest_year content min_year` returns the decimal
string of the greatest year among the NON-OVERLAPPING left-to-right regex
matches of the year pattern — `"20"`, an ASCII digit `0`-`4`, then any
Unicode decimal digit (category Nd) contributing its digit value — that is
at least `min_year`, and returns the sentinel `none` — surfaced by
`get_version_for_source` as `"unknown-year"` — exactly when no such match
survives the filter. -/
theorem extract_latest_year_characterization (content : String)
    (min_year : Int) :
    (extract_latest_year content min_year = none ↔
      ∀ y ∈ findYears content.data, (y : Int) < min_year) ∧
    (∀ s : String, extract_latest_year content min_year = some s ↔
      ∃ y : Nat, y ∈ findYears content.data ∧ min_year ≤ (y : Int) ∧
        (∀ z ∈ findYears content.data, min_year ≤ (z : Int) → z ≤ y) ∧
        s = toString y) ∧
    (∀ i n u : String,
      get_version_for_source ⟨i, n, u, some "latest_year", some min_year⟩
          content =
        match extract_latest_year content min_year with
        | some year => year
        | none => "unknown-year") :=
  ⟨extract_latest_year_none_iff content min_year,
   fun s => extract_latest_year_some_iff content min_year s,
   fun _ _ _ => rfl⟩

/-- C8 (counterexample): on the content `"202٤"` (the last character the
Arabic-Indic digit four, U+0664) the regex's `\x5cd` matches and `int()`
parses the digit, so the code returns `"2024"` — which does NOT occur as a
4-digit substring of the content. -/
theorem extract_latest_year_unicode_counterexample :
    extract_latest_year "202٤" 2010 = some "2024" ∧
    ¬∃ pre post : List Char,
      "202٤".data = pre ++ (toString 2024).data ++ post := by
  refine ⟨by decide, ?_⟩
  rintro ⟨pre, post, h⟩
  rw [show (toString 2024).data = ['2', '0', '2', '4'] from by decide] at h
  rw [show "202٤".data = ['2', '0', '2', '٤'] from by decide] at h
  have hlen := congrArg List.length h
  simp at hlen
  obtain rfl : pre = [] := List.eq_nil_of_length_eq_zero (by omega)
  obtain rfl : post = [] := List.eq_nil_of_length_eq_zero (by omega)
  simp at h

/-- C8 (amended): a successful `extract_latest_year` result is the decimal
string of a year at least `min_year` obtained from a 4-character substring
of the content matching the year pattern — `"20"`, an ASCII digit `0`-`4`,
then any Unicode decimal digit contributing its digit value.  When that
final digit is ASCII, the 4-digit decimal representation of the year itself
occurs as a substring of the content (at that very match). -/
theorem extract_latest_year_sound (content : String) (min_year : Int)
    (s : String) (h : extract_latest_year content min_year = some s) :
    ∃ y : Nat, min_year ≤ (y : Int) ∧ s = toString y ∧
      ∃ c3 c4 pre post, c3 ∈ digits04 ∧ isPyDigit c4 = true ∧
        y = yearVal c3 c4 ∧
        content.data = pre ++ '2' :: '0' :: c3 :: c4 :: post ∧
        (c4 ∈ digits09 →
          content.data = pre ++ (toString y).data ++ post) := by
  obtain ⟨y, hy1, hy2, _, rfl⟩ :=
    (extract_latest_year_some_iff content min_year s).mp h
  obtain ⟨c3, c4, pre, post, m3, m4, hval, hsplit⟩ := findYears_mem _ y hy1
  refine ⟨y, hy2, rfl, c3, c4, pre, post, m3, m4, hval, hsplit, ?_⟩
  intro h09
  rw [hsplit, hval, yearVal_toString c3 m3 c4 h09]
  simp

/-- C8 witness: the spec's own example input, where the matched digit is
ASCII and the year string is a substring. -/
theorem extract_latest_year_sound_witness :
    ∃ y : Nat, (2020 : Int) ≤ (y : Int) ∧ "2024" = toString y ∧
      ∃ c3 c4 pre post, c3 ∈ digits04 ∧ isPyDigit c4 = true ∧
        y = yearVal c3 c4 ∧
        "...2024 and 2019...".data =
          pre ++ '2' :: '0' :: c3 :: c4 :: post ∧
        (c4 ∈ digits09 →
          "...2024 and 2019...".data = pre ++ (toString y).data ++ post) :=
  extract_latest_year_sound "...2024 and 2019..." 2020 "2024" (by decide)

/-- C3: the orchestrator loop processes the sources in order; a successful
source contributes exactly its formatted success line, a failing source
exactly its formatted error line, and the loop continues past failures, so
both lists preserve the registry order and one failure never disturbs the
other entries. -/
theorem runLists_eq_filterMap (fetch : Source → Except String String)
    (srcs : List Source) :
    runLists fetch srcs =
      (srcs.filterMap (okLine fetch), srcs.filterMap (errLine fetch)) := by
  unfold runLists
  rw [runLists_foldl_acc]
  simp

/-- C2: every run delivers exactly one notification — the all-failed variant
precisely when the success list is empty and the error list non-empty (its
body listing all accumulated error lines), and the snapshot variant
otherwise. -/
theorem run_sends_exactly_one_notification
    (fetch : Source → Except String String) :
    (run fetch).length = 1 ∧
    (run fetch).map Prod.fst =
      [if (runLists fetch SOURCES).1 = [] ∧ (runLists fetch SOURCES).2 ≠ []
       then "Healthcare report watcher: ALL CHECKS FAILED"
       else "Healthcare report watcher: latest snapshot"] ∧
    ((runLists fetch SOURCES).1 = [] → (runLists fetch SOURCES).2 ≠ [] →
      run fetch = [("Healthcare report watcher: ALL CHECKS FAILED",
        "All sources failed to fetch:\n\n" ++
          String.intercalate "\n" (runLists fetch SOURCES).2)]) := by
  by_cases h : (runLists fetch SOURCES).1 = [] ∧ (runLists fetch SOURCES).2 ≠ []
  · refine ⟨?_, ?_, ?_⟩ <;> simp [run, send_email, h]
  · refine ⟨?_, ?_, ?_⟩
    · simp [run, send_email, h]
    · simp [run, send_email, h]
    · intro h1 h2
      exact absurd ⟨h1, h2⟩ h

/-- C2 witness: when every fetch raises, the single notification is the
all-failed variant. -/
theorem run_all_failed_witness :
    run (fun _ => Except.error "boom") =
      [("Healthcare report watcher: ALL CHECKS FAILED",
        "All sources failed to fetch:\n\n" ++ String.intercalate "\n"
          (runLists (fun _ => Except.error "boom") SOURCES).2)] :=
  (run_sends_exactly_one_notification _).2.2 (by decide) (by decide)

/-- C5: when `extract_kaufman_title` yields no title (no `h1`, or empty
collapsed text), the `kaufman_title` strategy returns exactly the hash
strategy's output. -/
theorem kaufman_title_falls_back_to_hash (i n u : String) (my : Option Int)
    (html : String) (h : extract_kaufman_title html = none) :
    get_version_for_source ⟨i, n, u, some "kaufman_title", my⟩ html =
      hash_page html := by
  simp [get_version_for_source, h]

/-- C5 witness: the spec's example input without a heading. -/
theorem kaufman_title_falls_back_witness :
    get_version_for_source
        ⟨"kaufman_flash", "Kaufman Hall National Hospital Flash Report",
         "https://www.kaufmanhall.com/insights-reports/national-hospital-flash-report",
         some "kaufman_title", none⟩ "<p>no heading</p>" =
      hash_page "<p>no heading</p>" :=
  kaufman_title_falls_back_to_hash _ _ _ _ _ (by decide)

/-- C6: any mode string other than the three known strategies falls through
to the hash strategy, and the dispatcher is a total function (an unrecognized
mode cannot raise). -/
theorem unrecognized_mode_falls_back_to_hash (m i n u : String)
    (my : Option Int) (html : String) (h1 : m ≠ "latest_year")
    (h2 : m ≠ "kaufman_title") (h3 : m ≠ "hash") :
    get_version_for_source ⟨i, n, u, some m, my⟩ html = hash_page html := by
  simp [get_version_for_source, h1, h2, h3]

/-- C6 witness: a concrete unknown mode. -/
theorem unrecognized_mode_witness :
    get_version_for_source ⟨"x", "X", "http://x", some "mystery_mode", none⟩
        "content" = hash_page "content" :=
  unrecognized_mode_falls_back_to_hash _ _ _ _ _ _ (by decide) (by decide)
    (by decide)

/-- The digest truncation always has exactly 10 characters. -/
theorem hash_page_length (html : String) : (hash_page html).length = 10 := by
  have hlen : (sha256hexChars (utf8Bytes html)).length = 64 := by
    simp [sha256hexChars, wordHexChars]
  have h10 : (hash_page html).length =
      ((sha256hexChars (utf8Bytes html)).take 10).length := rfl
  rw [h10, List.length_take, hlen]
  decide

theorem hash_page_ne_empty (html : String) : hash_page html ≠ "" := by
  intro h
  have hlen := congrArg String.length h
  rw [hash_page_length] at hlen
  simp [String.length] at hlen

/-- C7: `hash_page` is the first 10 hex characters of the SHA-256 digest of
the UTF-8 bytes of the content; its output always has exactly 10 characters,
and equal inputs give equal outputs. -/
theorem hash_page_sha256_first10 (content : String) :
    hash_page content =
      String.mk ((sha256hexChars (utf8Bytes content)).take 10) ∧
    (hash_page content).length = 10 ∧
    ∀ c2 : String, content = c2 → hash_page content = hash_page c2 :=
  ⟨rfl, hash_page_length content, fun c2 h => by rw [h]⟩

/-- C7 witness. -/
theorem hash_page_sha256_witness :
    (hash_page "a").length = 10 ∧ hash_page "a" = hash_page "a" :=
  ⟨(hash_page_sha256_first10 "a").2.1,
   (hash_page_sha256_first10 "a").2.2 "a" rfl⟩

/-- C10: a `latest_year` source without a `min_year` key behaves exactly as
with `min_year = 2010`, and `extract_latest_year`'s own default argument is
2010 as well. -/
theorem min_year_defaults_to_2010 (i n u : String) (html : String) :
    get_version_for_source ⟨i, n, u, some "latest_year", none⟩ html =
      get_version_for_source ⟨i, n, u, some "latest_year", some 2010⟩ html ∧
    extract_latest_year html = extract_latest_year html 2010 :=
  ⟨rfl, rfl⟩

/-!  Lemmas about `pySplit` and `pyStrip`: splitting on whitespace ignores
stripped whitespace at either end. -/

theorem pySplit_cons_space (c : Char) (t : List Char) (hc : pySpace c = true) :
    pySplit (c :: t) = pySplit t := by
  unfold pySplit
  rw [List.foldr_cons]
  rcases hf : List.foldr pySplitStep ([], []) t with ⟨ws, w⟩
  cases w with
  | nil => simp [pySplitStep, hc]
  | cons a w' => simp [pySplitStep, hc]

theorem pySplit_dropWhile (t : List Char) :
    pySplit (t.dropWhile pySpace) = pySplit t := by
  induction t with
  | nil => rfl
  | cons c t ih =>
    rw [List.dropWhile_cons]
    by_cases hc : pySpace c
    · rw [if_pos hc, ih, pySplit_cons_space c t hc]
    · rw [if_neg hc]

theorem pySplit_append_space (c : Char) (hc : pySpace c = true)
    (a : List Char) : pySplit (a ++ [c]) = pySplit a := by
  unfold pySplit
  rw [List.foldr_append]
  simp [pySplitStep, hc]

theorem pySplit_append_spaces :
    ∀ (w a : List Char), (∀ c ∈ w, pySpace c = true) →
      pySplit (a ++ w) = pySplit a := by
  intro w
  induction w with
  | nil => intro a _; simp
  | cons c w' ih =>
    intro a hw
    rw [show a ++ c :: w' = (a ++ [c]) ++ w' from by simp]
    rw [ih (a ++ [c]) (fun d hd => hw d (List.mem_cons_of_mem c hd))]
    exact pySplit_append_space c (hw c (List.mem_cons_self c w')) a

theorem pySplit_pyStrip (t : List Char) : pySplit (pyStrip t) = pySplit t := by
  unfold pyStrip
  have hsplit : t.dropWhile pySpace =
      ((t.dropWhile pySpace).reverse.dropWhile pySpace).reverse ++
        ((t.dropWhile pySpace).reverse.takeWhile pySpace).reverse := by
    rw [← List.reverse_append, List.takeWhile_append_dropWhile,
      List.reverse_reverse]
  have hspaces : ∀ c ∈ ((t.dropWhile pySpace).reverse.takeWhile
      pySpace).reverse, pySpace c = true := by
    intro c hc
    rw [List.mem_reverse] at hc
    exact List.mem_takeWhile_imp hc
  calc pySplit (((t.dropWhile pySpace).reverse.dropWhile pySpace).reverse)
      = pySplit ((((t.dropWhile pySpace).reverse.dropWhile pySpace).reverse) ++
          ((t.dropWhile pySpace).reverse.takeWhile pySpace).reverse) :=
        (pySplit_append_spaces _ _ hspaces).symm
    _ = pySplit (t.dropWhile pySpace) := by rw [← hsplit]
    _ = pySplit t := pySplit_dropWhile t

theorem pyJoinSplit_pyStrip (t : List Char) :
    pyJoinSplit (pyStrip t) = pyJoinSplit t := by
  unfold pyJoinSplit
  rw [pySplit_pyStrip]

/-!  Lemmas about the tokenizer: the token list produced for a document that
starts with an `h1` element whose content is a single text run. -/

theorem tkStep_shift (c : Char) (ts : List Tok)
    (cur : Option (Bool × List Char)) :
    tkStep (ts, cur) c =
      ((tkStep ([], cur) c).1 ++ ts, (tkStep ([], cur) c).2) := by
  rcases cur with _ | ⟨b, acc⟩
  · unfold tkStep
    by_cases hc : c = '<' <;> simp [hc]
  · cases b <;> unfold tkStep
    · by_cases hc : c = '<' <;> simp [hc]
    · by_cases hc : c = '>' <;> simp [hc]

theorem foldl_tkStep_shift :
    ∀ (t : List Char) (ts : List Tok) (cur : Option (Bool × List Char)),
      (List.foldl tkStep (ts, cur) t).1 =
        (List.foldl tkStep (([] : List Tok), cur) t).1 ++ ts ∧
      (List.foldl tkStep (ts, cur) t).2 =
        (List.foldl tkStep (([] : List Tok), cur) t).2 := by
  intro t
  induction t with
  | nil => intro ts cur; simp
  | cons c t ih =>
    intro ts cur
    rcases hs : tkStep ([], cur) c with ⟨δ, cur'⟩
    have hts : tkStep (ts, cur) c = (δ ++ ts, cur') := by
      rw [tkStep_shift c ts cur, hs]
    rw [List.foldl_cons, List.foldl_cons, hts, hs]
    obtain ⟨ih1, ih2⟩ := ih (δ ++ ts) cur'
    obtain ⟨ih1', ih2'⟩ := ih δ cur'
    constructor
    · rw [ih1, ih1']
      simp
    · rw [ih2, ih2']

theorem foldl_tkStep_text :
    ∀ (t : List Char) (acc : List Char) (ts : List Tok),
      (∀ c ∈ t, c ≠ '<') →
      List.foldl tkStep (ts, some (false, acc)) t =
        (ts, some (false, t.reverse ++ acc)) := by
  intro t
  induction t with
  | nil => intro acc ts _; simp
  | cons c t ih =>
    intro acc ts h
    have hc : c ≠ '<' := h c (List.mem_cons_self c t)
    have hstep : tkStep (ts, some (false, acc)) c =
        (ts, some (false, c :: acc)) := by
      unfold tkStep
      simp [hc]
    rw [List.foldl_cons, hstep,
      ih (c :: acc) ts (fun d hd => h d (List.mem_cons_of_mem c hd))]
    simp

theorem tkFinish_append (ts l : List Tok) (cur : Option (Bool × List Char)) :
    tkFinish (ts ++ l, cur) = l.reverse ++ tkFinish (ts, cur) := by
  rcases cur with _ | ⟨b, acc⟩
  · simp [tkFinish]
  · cases b <;> simp [tkFinish]

/-- The token stream of a document beginning with an `h1` element whose
content is one `<`-free text run: the open tag, the text (when non-empty),
the close tag, then whatever the remainder tokenizes to. -/
theorem tokenize_h1_first (txt rest : List Char) (h : ∀ c ∈ txt, c ≠ '<') :
    tokenize ('<' :: 'h' :: '1' :: '>' ::
        (txt ++ '<' :: '/' :: 'h' :: '1' :: '>' :: rest)) =
      Tok.tagTok ['h', '1'] ::
        ((if txt = [] then [] else [Tok.textTok txt]) ++
          Tok.tagTok ['/', 'h', '1'] :: tokenize rest) := by
  unfold tokenize
  have hopen : List.foldl tkStep (([] : List Tok), none)
      ('<' :: 'h' :: '1' :: '>' ::
        (txt ++ '<' :: '/' :: 'h' :: '1' :: '>' :: rest)) =
      List.foldl tkStep ([Tok.tagTok ['h', '1']], none)
        (txt ++ '<' :: '/' :: 'h' :: '1' :: '>' :: rest) := rfl
  rw [hopen]
  cases txt with
  | nil =>
    rw [if_pos rfl]
    have hclose : List.foldl tkStep ([Tok.tagTok ['h', '1']], none)
        (([] : List Char) ++ '<' :: '/' :: 'h' :: '1' :: '>' :: rest) =
        List.foldl tkStep
          ([Tok.tagTok ['/', 'h', '1'], Tok.tagTok ['h', '1']], none)
          rest := rfl
    rw [hclose]
    obtain ⟨hs1, hs2⟩ := foldl_tkStep_shift rest
      [Tok.tagTok ['/', 'h', '1'], Tok.tagTok ['h', '1']] none
    rw [show (List.foldl tkStep
        ([Tok.tagTok ['/', 'h', '1'], Tok.tagTok ['h', '1']], none) rest) =
        ((List.foldl tkStep (([] : List Tok), none) rest).1 ++
          [Tok.tagTok ['/', 'h', '1'], Tok.tagTok ['h', '1']],
         (List.foldl tkStep (([] : List Tok), none) rest).2) from
      Prod.ext hs1 hs2]
    rw [tkFinish_append]
    simp
  | cons c t =>
    have hne : (c :: t : List Char) ≠ [] := by simp
    rw [if_neg hne]
    rw [List.foldl_append]
    have hc : c ≠ '<' := h c (List.mem_cons_self c t)
    have hfirst : List.foldl tkStep ([Tok.tagTok ['h', '1']], none)
        (c :: t) =
        List.foldl tkStep ([Tok.tagTok ['h', '1']], some (false, [c])) t := by
      rw [List.foldl_cons]
      congr 1
      unfold tkStep
      simp [hc]
    rw [hfirst,
      foldl_tkStep_text t [c] [Tok.tagTok ['h', '1']]
        (fun d hd => h d (List.mem_cons_of_mem c hd))]
    have hclose : List.foldl tkStep
        ([Tok.tagTok ['h', '1']], some (false, t.reverse ++ [c]))
        ('<' :: '/' :: 'h' :: '1' :: '>' :: rest) =
        List.foldl tkStep
          ([Tok.tagTok ['/', 'h', '1'],
            Tok.textTok ((t.reverse ++ [c]).reverse), Tok.tagTok ['h', '1']],
           none) rest := rfl
    rw [hclose]
    obtain ⟨hs1, hs2⟩ := foldl_tkStep_shift rest
      [Tok.tagTok ['/', 'h', '1'],
       Tok.textTok ((t.reverse ++ [c]).reverse), Tok.tagTok ['h', '1']] none
    rw [show (List.foldl tkStep
        ([Tok.tagTok ['/', 'h', '1'],
          Tok.textTok ((t.reverse ++ [c]).reverse), Tok.tagTok ['h', '1']],
         none) rest) =
        ((List.foldl tkStep (([] : List Tok), none) rest).1 ++
          [Tok.tagTok ['/', 'h', '1'],
           Tok.textTok ((t.reverse ++ [c]).reverse), Tok.tagTok ['h', '1']],
         (List.foldl tkStep (([] : List Tok), none) rest).2) from
      Prod.ext hs1 hs2]
    rw [tkFinish_append]
    simp

/-- The string nodes found for the first `h1` of the decomposed document. -/
theorem h1Strings_decomp (txt : List Char) (junk : List Tok) :
    h1Strings (Tok.tagTok ['h', '1'] ::
        ((if txt = [] then [] else [Tok.textTok txt]) ++
          Tok.tagTok ['/', 'h', '1'] :: junk)) =
      some (if txt = [] then [] else [txt]) := by
  have e1 : tagParse ['h', '1'] = (false, ['h', '1']) := by decide
  have e2 : tagParse ['/', 'h', '1'] = (true, ['h', '1']) := by decide
  by_cases ht : txt = []
  · rw [if_pos ht, if_pos ht]
    simp [h1Strings, collectH1, e1, e2]
  · rw [if_neg ht, if_neg ht]
    simp [h1Strings, collectH1, e1, e2]

/-- C4 (counterexample): inside an `h1` with nested markup the code
concatenates the stripped text nodes without a separator
(`get_text(strip=True)` with the default empty separator), so the
inter-element whitespace is dropped, not collapsed: the result differs from
the whitespace-collapsed text content the claim describes. -/
theorem extract_kaufman_title_nested_counterexample :
    extract_kaufman_title "<h1>A <b>B</b></h1>" = some "AB" ∧
    specKaufmanTitle "<h1>A <b>B</b></h1>" = some "A B" ∧
    extract_kaufman_title "<h1>A <b>B</b></h1>" ≠
      specKaufmanTitle "<h1>A <b>B</b></h1>" :=
  ⟨by decide, by decide, by decide⟩

/-- C4 (amended): when the first `h1` holds a single text run — no nested
markup (`<`) and no character references (`&`, whose conversion by
html.parser is outside this model) — `extract_kaufman_title` returns exactly
that text with every internal whitespace run collapsed to one space and the
ends trimmed (`none` when nothing remains), and agrees with the collapsed
text content of the spec reading.  Whitespace here is the full Python
whitespace set (`pySpace`), including the non-ASCII spaces. -/
theorem extract_kaufman_title_flat (txt rest : String)
    (h : ∀ c ∈ txt.data, c ≠ '<' ∧ c ≠ '&') :
    extract_kaufman_title ("<h1>" ++ txt ++ "</h1>" ++ rest) =
      (if pyJoinSplit txt.data = [] then none
       else some (String.mk (pyJoinSplit txt.data))) ∧
    extract_kaufman_title ("<h1>" ++ txt ++ "</h1>" ++ rest) =
      specKaufmanTitle ("<h1>" ++ txt ++ "</h1>" ++ rest) := by
  have hdata : ("<h1>" ++ txt ++ "</h1>" ++ rest).data =
      '<' :: 'h' :: '1' :: '>' ::
        (txt.data ++ '<' :: '/' :: 'h' :: '1' :: '>' :: rest.data) := by
    rw [show ("<h1>" ++ txt ++ "</h1>" ++ rest) =
        String.mk ("<h1>".data ++ txt.data ++ "</h1>".data ++ rest.data)
      from rfl]
    simp
  unfold extract_kaufman_title specKaufmanTitle
  rw [hdata,
    tokenize_h1_first txt.data rest.data (fun c hc => (h c hc).1),
    h1Strings_decomp]
  by_cases ht : txt.data = []
  · rw [if_pos ht, ht]
    simp [pyJoinSplit, pySplit]
  · rw [if_neg ht]
    simp only [List.map_cons, List.map_nil, List.flatten_cons,
      List.flatten_nil, List.append_nil]
    rw [pyJoinSplit_pyStrip]
    simp

/-- C4 witness: the spec's own example heading. -/
theorem extract_kaufman_title_flat_witness :
    extract_kaufman_title ("<h1>" ++ "  Report   Title\n2025 " ++ "</h1>" ++
        "") = some "Report Title 2025" := by
  rw [(extract_kaufman_title_flat "  Report   Title\n2025 " ""
    (by decide)).1]
  decide

/-- The decimal string of any year in the matched range is non-empty. -/
theorem year_range_toString_ne_empty :
    ∀ k < 50, toString (2000 + k) ≠ "" := by decide

/-- A successful year extraction is never the empty string (it is a 4-digit
year). -/
theorem year_string_ne_empty (html : String) (m : Int) (s : String)
    (h : extract_latest_year html m = some s) : s ≠ "" := by
  obtain ⟨y, hy1, _, _, rfl⟩ :=
    (extract_latest_year_some_iff html m s).mp h
  obtain ⟨c3, c4, _, _, m3, m4, hval, _⟩ := findYears_mem _ y hy1
  obtain ⟨hlo, hhi⟩ := yearVal_bounds c3 c4 m3 m4
  rw [← hval] at hlo hhi
  rw [show y = 2000 + (y - 2000) from by omega]
  exact year_range_toString_ne_empty (y - 2000) (by omega)

/-- A successful title extraction is never the empty string (`text or None`
turns the empty collapse into `None`). -/
theorem kaufman_string_ne_empty (html : String) (s : String)
    (h : extract_kaufman_title html = some s) : s ≠ "" := by
  unfold extract_kaufman_title at h
  cases hh : h1Strings (tokenize html.data) with
  | none => rw [hh] at h; simp at h
  | some texts =>
    rw [hh] at h
    have h' : (if pyJoinSplit ((texts.map pyStrip).flatten) = [] then none
        else some (String.mk (pyJoinSplit ((texts.map pyStrip).flatten)))) =
          some s := h
    by_cases ht : pyJoinSplit ((texts.map pyStrip).flatten) = []
    · rw [if_pos ht] at h'; simp at h'
    · rw [if_neg ht] at h'
      obtain rfl : String.mk (pyJoinSplit ((texts.map pyStrip).flatten)) = s :=
        by simpa using h'
      intro heq
      exact ht (by simpa using congrArg String.data heq)

/-- C9: the version marker is always a non-empty string, whatever the source
descriptor and page content — so a success line never carries an empty
version field. -/
theorem get_version_for_source_nonempty (src : Source) (html : String) :
    get_version_for_source src html ≠ "" := by
  by_cases h1 : src.mode.getD "hash" = "latest_year"
  · have hrw : get_version_for_source src html =
        (match extract_latest_year html (src.min_year.getD 2010) with
         | some year => year
         | none => "unknown-year") := by
      simp [get_version_for_source, h1]
    rw [hrw]
    cases hx : extract_latest_year html (src.min_year.getD 2010) with
    | some s => simpa using year_string_ne_empty html _ s hx
    | none => decide
  · by_cases h2 : src.mode.getD "hash" = "kaufman_title"
    · have hrw : get_version_for_source src html =
          (match extract_kaufman_title html with
           | some label => label
           | none => hash_page html) := by
        simp [get_version_for_source, h1, h2]
      rw [hrw]
      cases hx : extract_kaufman_title html with
      | some s => simpa using kaufman_string_ne_empty html s hx
      | none => simpa using hash_page_ne_empty html
    · by_cases h3 : src.mode.getD "hash" = "hash"
      · have hrw : get_version_for_source src html = hash_page html := by
          simp [get_version_for_source, h1, h2, h3]
        rw [hrw]
        exact hash_page_ne_empty html
      · have hrw : get_version_for_source src html = hash_page html := by
          simp [get_version_for_source, h1, h2, h3]
        rw [hrw]
        exact hash_page_ne_empty html

